import Mathlib

/-!
Shallow embedding of the `fday` HTTP server (`src/exercise2/project/main.py`):
the request parser (`HTTPRequest`), the response builder
(`HTTPServer.response_line`, `HTTPServer.response_headers`), the method
dispatcher (`HTTPServer.handle_request`), the GET content handler
(`HTTPServer.handle_GET`) and the directory renderer
(`render_directory_contents`).

Byte buffers are `List Nat` (each entry a byte value).  Python's
`bytes.decode()` / `str.encode()` are modelled by a strict UTF-8 decoder
(`utf8DecodeL`) and encoder (`utf8EncodeChar` / `utf8Encode`).  Fallible
Python code (statements that can raise) is modelled with `Option` / `Except`.
-/

/-- UTF-8 encoding of a single character, as byte values (model of
Python `str.encode()` restricted to one character; mirrors the standard
1/2/3/4-byte layout). -/
def utf8EncodeChar (c : Char) : List Nat :=
  let n := c.toNat
  if n < 0x80 then [n]
  else if n < 0x800 then [0xC0 + n / 64, 0x80 + n % 64]
  else if n < 0x10000 then [0xE0 + n / 4096, 0x80 + n / 64 % 64, 0x80 + n % 64]
  else [0xF0 + n / 262144, 0x80 + n / 4096 % 64, 0x80 + n / 64 % 64, 0x80 + n % 64]

/-- UTF-8 encoding of a string (model of Python `str.encode()`). -/
def utf8Encode (s : String) : List Nat :=
  s.data.flatMap utf8EncodeChar

/-- Decode one UTF-8 sequence: `b` is the first byte, `rest` the bytes
after it.  Returns the character and the bytes after the sequence, or
`none` on an invalid or truncated sequence.  Rejects continuation-byte
errors, overlong forms, surrogates and values above U+10FFFF, as
CPython's strict codec does. -/
def utf8DecodeStep (b : Nat) (rest : List Nat) : Option (Char × List Nat) :=
  if b < 0x80 then some (Char.ofNat b, rest)
  else if b < 0xC2 then none
  else if b < 0xE0 then
    match rest with
    | c1 :: rest2 =>
      if 0x80 ≤ c1 ∧ c1 < 0xC0 then
        some (Char.ofNat ((b - 0xC0) * 64 + (c1 - 0x80)), rest2)
      else none
    | [] => none
  else if b < 0xF0 then
    match rest with
    | c1 :: c2 :: rest3 =>
      if 0x80 ≤ c1 ∧ c1 < 0xC0 ∧ 0x80 ≤ c2 ∧ c2 < 0xC0 ∧
          (0xE0 < b ∨ 0xA0 ≤ c1) ∧ (b ≠ 0xED ∨ c1 < 0xA0) then
        some (Char.ofNat ((b - 0xE0) * 4096 + (c1 - 0x80) * 64 + (c2 - 0x80)), rest3)
      else none
    | _ => none
  else if b < 0xF5 then
    match rest with
    | c1 :: c2 :: c3 :: rest4 =>
      if 0x80 ≤ c1 ∧ c1 < 0xC0 ∧ 0x80 ≤ c2 ∧ c2 < 0xC0 ∧ 0x80 ≤ c3 ∧ c3 < 0xC0 ∧
          (0xF0 < b ∨ 0x90 ≤ c1) ∧ (b ≠ 0xF4 ∨ c1 < 0x90) then
        some (Char.ofNat ((b - 0xF0) * 262144 + (c1 - 0x80) * 4096 +
          (c2 - 0x80) * 64 + (c3 - 0x80)), rest4)
      else none
    | _ => none
  else none

/-- Strict UTF-8 decoding driver with a step budget (each step consumes
at least one byte, so a budget of the list's length always suffices). -/
def utf8DecodeAux : Nat → List Nat → Option (List Char)
  | _, [] => some []
  | 0, _ :: _ => none
  | fuel + 1, b :: rest =>
    match utf8DecodeStep b rest with
    | none => none
    | some (c, rest2) => (utf8DecodeAux fuel rest2).map (fun cs => c :: cs)

/-- Strict UTF-8 decoding of a byte list to characters; `none` models a
`UnicodeDecodeError` raised by Python's `bytes.decode()`. -/
def utf8DecodeL (bs : List Nat) : Option (List Char) :=
  utf8DecodeAux bs.length bs

/-- Model of Python `bytes.decode()` (strict UTF-8): `none` is a raised
`UnicodeDecodeError`. -/
def pyDecode (bs : List Nat) : Option String :=
  (utf8DecodeL bs).map (fun cs => String.mk cs)

/-- Values of a Python attribute that may hold either a text string or a
bytes object (needed because `HTTPRequest.http_version` defaults to the
text string `"1.1"` but is overwritten with an undecoded bytes token). -/
inductive PyData where
  | str (s : String)
  | bytes (bs : List Nat)
deriving DecidableEq, Repr

/-- First line of a byte buffer: everything before the first CR LF.
Equals `data.split(b"\r\n")[0]` in the source (`HTTPRequest.parse`,
lines 209-211). -/
def firstLine : List Nat → List Nat
  | [] => []
  | 13 :: 10 :: _ => []
  | x :: xs => x :: firstLine xs

/-- Split a byte list on every occurrence of a single separator byte,
with Python `bytes.split(sep)` semantics (the empty buffer yields one
empty piece).  Used with separator 32 for `request_line.split(b" ")`. -/
def splitByte (sep : Nat) : List Nat → List (List Nat)
  | [] => [[]]
  | x :: xs =>
    if x = sep then [] :: splitByte sep xs
    else
      match splitByte sep xs with
      | y :: ys => (x :: y) :: ys
      | [] => [[x]]

/-- Parsed HTTP request (the attributes of Python class `HTTPRequest`):
`method` and `uri` are decoded text, `uri` is `none` when the request line
has a single token, and `http_version` is a `PyData` because the source
assigns the raw bytes token without decoding (line 225). -/
structure HTTPRequest where
  method : String
  uri : Option String
  http_version : PyData
deriving DecidableEq, Repr

/-- Model of `HTTPRequest.__init__` / `HTTPRequest.parse` (lines 198-225):
split the buffer on CR LF, take the first line, split it on single spaces,
decode token 0 into `method`, token 1 (if present) into `uri`, and store
token 2 (if present) undecoded into `http_version`, which otherwise keeps
the default `"1.1"`.  `none` models a raised `UnicodeDecodeError`. -/
def HTTPRequest.parse (data : List Nat) : Option HTTPRequest :=
  let request_line := firstLine data
  let words := splitByte 32 request_line
  match pyDecode (words.headD []) with
  | none => none
  | some m =>
    if h1 : words.length > 1 then
      match pyDecode (words.get ⟨1, h1⟩) with
      | none => none
      | some u =>
        if h2 : words.length > 2 then
          some ⟨m, some u, PyData.bytes (words.get ⟨2, h2⟩)⟩
        else
          some ⟨m, some u, PyData.str "1.1"⟩
    else
      some ⟨m, none, PyData.str "1.1"⟩

/-- Replacement character U+FFFD, produced by decoding with
`errors="replace"`. -/
def replChar : Char := Char.ofNat 0xFFFD

/-- UTF-8 decoding with replacement, driver with a step budget: an
invalid or truncated sequence yields U+FFFD and decoding resumes at the
next byte. -/
def utf8DecodeReplaceAux : Nat → List Nat → List Char
  | _, [] => []
  | 0, _ :: _ => []
  | fuel + 1, b :: rest =>
    match utf8DecodeStep b rest with
    | none => replChar :: utf8DecodeReplaceAux fuel rest
    | some (c, rest2) => c :: utf8DecodeReplaceAux fuel rest2

/-- UTF-8 decoding with replacement (model of Python `bytes.decode` with
`errors="replace"`, as used inside `urllib.parse.unquote`).  On valid
input it agrees with `utf8DecodeL`. -/
def utf8DecodeReplaceL (bs : List Nat) : List Char :=
  utf8DecodeReplaceAux bs.length bs

/-- Characters Python `urllib.parse.quote` leaves unescaped with the
default `safe="/"`: ASCII letters, digits, `_.-~` and `/`. -/
def isSafeChar (c : Char) : Bool :=
  c.isAlpha || c.isDigit || c = '_' || c = '.' || c = '-' || c = '~' || c = '/'

/-- Uppercase hexadecimal digit for a value below 16. -/
def hexDigitChar (n : Nat) : Char :=
  if n < 10 then Char.ofNat (48 + n) else Char.ofNat (55 + n)

/-- Numeric value of a hexadecimal digit character, `none` for
non-hex-digit characters (both cases accepted, as in `urllib`). -/
def hexVal (c : Char) : Option Nat :=
  if '0' ≤ c ∧ c ≤ '9' then some (c.toNat - 48)
  else if 'A' ≤ c ∧ c ≤ 'F' then some (c.toNat - 55)
  else if 'a' ≤ c ∧ c ≤ 'f' then some (c.toNat - 87)
  else none

/-- Percent-encoding of one character: safe characters pass through,
everything else becomes one `%XX` triplet per UTF-8 byte. -/
def quoteChar (c : Char) : List Char :=
  if isSafeChar c then [c]
  else (utf8EncodeChar c).flatMap (fun b => ['%', hexDigitChar (b / 16), hexDigitChar (b % 16)])

/-- Modelled from the spec: `urllib.parse.quote` (a supplied primitive of
the out-of-scope standard library), the "percent-encoding" scheme used to
build `href` values — "a reversible escaping scheme for characters unsafe
in URIs" — with the library's default safe set. -/
def quote (s : String) : String :=
  String.mk (s.data.flatMap quoteChar)

/-- One tokenisation step: a `%` followed by two hex digits produces a
byte token and skips three characters, any other character passes through
as itself (including a `%` not followed by two hex digits, as in
`urllib.parse.unquote`). -/
def percentStep (c : Char) (rest : List Char) : (Nat ⊕ Char) × List Char :=
  if c = '%' then
    match rest with
    | h1 :: h2 :: rest2 =>
      match hexVal h1, hexVal h2 with
      | some v1, some v2 => (Sum.inl (16 * v1 + v2), rest2)
      | _, _ => (Sum.inr c, rest)
    | _ => (Sum.inr c, rest)
  else (Sum.inr c, rest)

/-- Tokenisation driver with a step budget (each step consumes at least
one character, so a budget of the list's length always suffices). -/
def unquoteTokensAux : Nat → List Char → List (Nat ⊕ Char)
  | _, [] => []
  | 0, _ :: _ => []
  | fuel + 1, c :: rest =>
    match percentStep c rest with
    | (t, rest2) => t :: unquoteTokensAux fuel rest2

/-- Tokenise a percent-encoded string into percent-decoded byte tokens
and pass-through characters. -/
def unquoteTokens (cs : List Char) : List (Nat ⊕ Char) :=
  unquoteTokensAux cs.length cs

/-- Decode the token stream: maximal runs of percent-decoded bytes are
UTF-8-decoded with replacement (as `urllib.parse.unquote` does), literal
characters pass through.  `acc` is the pending byte run. -/
def flushDecode (acc : List Nat) : List (Nat ⊕ Char) → List Char
  | [] => utf8DecodeReplaceL acc
  | Sum.inl b :: rest => flushDecode (acc ++ [b]) rest
  | Sum.inr c :: rest => utf8DecodeReplaceL acc ++ c :: flushDecode [] rest

/-- Modelled from the spec: `urllib.parse.unquote` (a supplied primitive
of the out-of-scope standard library), the percent-decoding applied to
incoming request URIs. -/
def unquote (s : String) : String :=
  String.mk (flushDecode [] (unquoteTokens s.data))

/-- Modelled from the spec: the filesystem is a supplied primitive
("filesystem read and directory enumeration are supplied primitives").
A node is a regular file with byte content or a directory with named
children; the children's stored order is the order `Path.iterdir`
yields. -/
inductive FSNode where
  | file (content : List Nat)
  | dir (children : List (String × FSNode))

/-- Whether a node is a directory (model of `Path.is_dir()`). -/
def FSNode.isDirNode : FSNode → Bool
  | FSNode.dir _ => true
  | FSNode.file _ => false

/-- Whether a node is a regular file (model of `Path.is_file()`). -/
def FSNode.isFileNode : FSNode → Bool
  | FSNode.file _ => true
  | FSNode.dir _ => false

/-- Split a character list on every occurrence of a separator character
(the pieces between separators, like `str.split` with a one-character
separator). -/
def splitChar (sep : Char) : List Char → List (List Char)
  | [] => [[]]
  | x :: xs =>
    if x = sep then [] :: splitChar sep xs
    else
      match splitChar sep xs with
      | y :: ys => (x :: y) :: ys
      | [] => [[x]]

/-- Path components of a relative path string, as `pathlib` normalises
them: empty components and `.` components disappear (`Path(".")` has no
components, `Path("a//b")` equals `Path("a/b")`). -/
def pathComponents (p : String) : List String :=
  ((splitChar '/' p.data).map (fun cs => String.mk cs)).filter
    (fun s => s != "" && s != ".")

/-- Walk a path down the tree; `none` when a component is missing or a
file is entered. -/
def FSNode.resolve : FSNode → List String → Option FSNode
  | node, [] => some node
  | FSNode.file _, _ :: _ => none
  | FSNode.dir children, c :: rest =>
    match children.lookup c with
    | some child => FSNode.resolve child rest
    | none => none

/-- Model of `Path(p).exists()` relative to the working directory
`root`. -/
def FSNode.pathExists (root : FSNode) (p : String) : Bool :=
  (FSNode.resolve root (pathComponents p)).isSome

/-- Model of `Path(p).is_file()`. -/
def FSNode.pathIsFile (root : FSNode) (p : String) : Bool :=
  match FSNode.resolve root (pathComponents p) with
  | some (FSNode.file _) => true
  | _ => false

/-- Model of `Path(p).name` (final path component, empty for `"."`),
for the dot-free relative paths this server builds. -/
def pathName (p : String) : String :=
  (pathComponents p).getLastD ""

/-- Modelled from the spec: "MIME type inference from a file extension is
a supplied lookup table".  A representative fragment of the standard
`mimetypes` table, keyed by extension. -/
def mimeTable : List (String × String) :=
  [(".txt", "text/plain"), (".html", "text/html"), (".htm", "text/html"),
   (".css", "text/css"), (".js", "text/javascript"), (".json", "application/json"),
   (".png", "image/png"), (".jpg", "image/jpeg"), (".gif", "image/gif"),
   (".pdf", "application/pdf")]

/-- Extension of the final path component (with its dot), `none` when the
final component has no dot or only a leading dot, following
`os.path.splitext` as `mimetypes.guess_type` uses it. -/
def fileExtension (p : String) : Option String :=
  let base := ((splitChar '/' p.data).getLastD p.data)
  let name := (splitChar '.' base).map (fun cs => String.mk cs)
  if name.length < 2 then none
  else if name.headD "" = "" then none
  else some ("." ++ name.getLastD "")

/-- Modelled from the spec: `mimetypes.guess_type(path)[0]` — the MIME
type guessed from the path's extension, `none` when the table has no
entry. -/
def guess_type (p : String) : Option String :=
  match fileExtension p with
  | some ext => mimeTable.lookup ext
  | none => none

/-- Model of Python `str.strip("/")`: remove all leading and trailing
slash characters. -/
def stripSlashes (s : String) : String :=
  String.mk (((s.data.dropWhile (fun c => c = '/')).reverse.dropWhile (fun c => c = '/')).reverse)

/-- The class attribute `HTTPServer.headers` (lines 65-68): the default
response headers, in their dict insertion order. -/
def HTTPServer.headers : List (String × String) :=
  [("Server", "CrudeServer"), ("Content-Type", "text/html")]

/-- The class attribute `HTTPServer.status_codes` (lines 70-74). -/
def HTTPServer.status_codes : List (Nat × String) :=
  [(200, "OK"), (404, "Not Found"), (501, "Not Implemented")]

/-- Model of `HTTPServer.response_line` (lines 91-96): the status line as
text (the source encodes it to bytes at the end; encoding happens in
`HTTPResponse.render` here).  The source raises `KeyError` for a code
outside `status_codes`; every call site passes 200, 404 or 501. -/
def HTTPServer.response_line (status_code : Nat) : String :=
  "HTTP/1.1 " ++ toString status_code ++ " " ++
    ((HTTPServer.status_codes.lookup status_code).getD "") ++ "\r\n"

/-- One step of Python `dict.update`: overwrite the value in place when
the key exists (keeping its position), otherwise append the pair. -/
def dictInsert (d : List (String × String)) (kv : String × String) : List (String × String) :=
  if kv.1 ∈ d.map Prod.fst then
    d.map (fun p => if p.1 = kv.1 then (p.1, kv.2) else p)
  else d ++ [kv]

/-- Python `dict.update`: fold `dictInsert` over the extra pairs in
order. -/
def dictUpdate (d e : List (String × String)) : List (String × String) :=
  e.foldl dictInsert d

/-- The `headers_copy` local of `HTTPServer.response_headers` (lines
104-107): a copy of the defaults, updated with the extra headers when
the extra mapping is truthy (neither `None` nor empty). -/
def HTTPServer.headers_copy (extra_headers : Option (List (String × String))) :
    List (String × String) :=
  match extra_headers with
  | none => HTTPServer.headers
  | some e => if e = [] then HTTPServer.headers else dictUpdate HTTPServer.headers e

/-- Model of `HTTPServer.response_headers` (lines 98-114): render each
pair of the merged mapping as `Key: Value\r\n`, accumulating a string as
the source's loop does. -/
def HTTPServer.response_headers (extra_headers : Option (List (String × String))) : String :=
  (HTTPServer.headers_copy extra_headers).foldl
    (fun acc p => acc ++ (p.1 ++ ": " ++ p.2 ++ "\r\n")) ""

/-- A handler's result: the `response_line`, `response_headers` and
`response_body` locals that every handler builds and then joins with a
blank line (`HTTPResponse.render` performs the join and the text
encoding). -/
structure HTTPResponse where
  line : String
  headersStr : String
  body : List Nat
deriving DecidableEq, Repr

/-- The final bytes of a response: `b"".join([response_line,
response_headers, b"\r\n", response_body])`. -/
def HTTPResponse.render (r : HTTPResponse) : List Nat :=
  utf8Encode r.line ++ utf8Encode r.headersStr ++ [13, 10] ++ r.body

/-- Model of `HTTPServer.handle_OPTIONS` (lines 116-126): a 200 response
with an `Allow` header and no body. -/
def HTTPServer.handle_OPTIONS (_request : HTTPRequest) : HTTPResponse :=
  ⟨HTTPServer.response_line 200,
   HTTPServer.response_headers (some [("Allow", "OPTIONS, GET")]), []⟩

/-- Model of `HTTPServer.HTTP_501_handler` (lines 170-181). -/
def HTTPServer.HTTP_501_handler (_request : HTTPRequest) : HTTPResponse :=
  ⟨HTTPServer.response_line 501, HTTPServer.response_headers none,
   utf8Encode "<h1>501 Not Implemented</h1>"⟩

/-- Paragraph rendered for a subdirectory child (line 235; the marker
characters are the source file's literal characters U+F8FF U+00FC U+00EC
U+00C5). -/
def dirPara (pname child : String) : String :=
  "<p>üìÅ <a href=\"" ++ quote (pname ++ "/" ++ child) ++ "\">" ++
    child ++ "</a></p>\n"

/-- Paragraph rendered for a regular-file child (line 240; marker
characters U+F8FF U+00FC U+00F3 U+00E9). -/
def filePara (pname child : String) : String :=
  "<p>üóé <a href=\"" ++ quote (pname ++ "/" ++ child) ++ "\">" ++
    child ++ "</a></p>\n"

/-- Model of `render_directory_contents` (lines 228-241): a head element,
then one paragraph per immediate subdirectory, then one per immediate
regular file, each `href` the percent-encoding of the directory's own
name joined to the child's name by `/`.  `none` models the
`NotADirectoryError` that `iterdir` raises when `path` is not a
directory. -/
def render_directory_contents (root : FSNode) (path : String) : Option String :=
  match FSNode.resolve root (pathComponents path) with
  | some (FSNode.dir children) =>
    let pname := pathName path
    let resp1 := (children.filter (fun c => c.2.isDirNode)).foldl
      (fun acc c => acc ++ dirPara pname c.1) "<head><meta charset=\"UTF-8\"></head>"
    some ((children.filter (fun c => c.2.isFileNode)).foldl
      (fun acc c => acc ++ filePara pname c.1) resp1)
  | _ => none

/-- The `rel_path` local of `HTTPServer.handle_GET` (lines 133-135):
percent-decode the request URI, strip leading and trailing slashes, and
treat an empty result as the current directory. -/
def rel_path_of (uri : String) : String :=
  let rel_path0 := stripSlashes (unquote uri)
  if rel_path0 = "" then "." else rel_path0

/-- Model of `HTTPServer.handle_GET` (lines 128-168).  `root` is the
working directory the server resolves paths against.  With an unset
`uri`, the source evaluates `urllib.parse.unquote(None)`, which raises
`TypeError` (modelled by `Except.error`).  Otherwise the URI is
percent-decoded and stripped of slashes, the empty result becomes `"."`,
and the content type is guessed from `rel_path` before the file/directory
branch. -/
def HTTPServer.handle_GET (root : FSNode) (request : HTTPRequest) :
    Except String HTTPResponse :=
  match request.uri with
  | none => Except.error "TypeError"
  | some uri =>
    let rel_path := rel_path_of uri
    if FSNode.pathExists root rel_path then
      let response_line := HTTPServer.response_line 200
      let content_type := (guess_type rel_path).getD "text/html"
      let response_headers := HTTPServer.response_headers (some [("Content-Type", content_type)])
      if FSNode.pathIsFile root rel_path then
        match FSNode.resolve root (pathComponents rel_path) with
        | some (FSNode.file content) => Except.ok ⟨response_line, response_headers, content⟩
        | _ => Except.error "IsADirectoryError"
      else
        match render_directory_contents root rel_path with
        | some s => Except.ok ⟨response_line, response_headers, utf8Encode s⟩
        | none => Except.error "NotADirectoryError"
    else
      Except.ok ⟨HTTPServer.response_line 404, HTTPServer.response_headers none,
        utf8Encode ("<h1>404 Not Found: " ++ rel_path ++ "</h1>")⟩

/-- Model of the dispatch inside `HTTPServer.handle_request` (lines
81-88): `getattr(self, "handle_" + method)` succeeds exactly for the
attribute names `handle_GET`, `handle_OPTIONS` and `handle_request`
itself; any other name raises `AttributeError`, which is caught and
replaced by `HTTP_501_handler`.  When the method string is `"request"`,
the resolved handler is `handle_request`, and `handler(request)`
re-enters `handle_request` with an `HTTPRequest` instead of bytes; the
nested `HTTPRequest(data)` constructor then evaluates
`data.split(b"\r\n")` on a non-bytes object and raises an uncaught
`AttributeError`. -/
def HTTPServer.dispatch (root : FSNode) (request : HTTPRequest) :
    Except String HTTPResponse :=
  if request.method = "GET" then HTTPServer.handle_GET root request
  else if request.method = "OPTIONS" then Except.ok (HTTPServer.handle_OPTIONS request)
  else if request.method = "request" then Except.error "AttributeError"
  else Except.ok (HTTPServer.HTTP_501_handler request)

/-- Model of `HTTPServer.handle_request` (lines 76-89): parse the raw
bytes (a `UnicodeDecodeError` from parsing propagates), then dispatch on
the method. -/
def HTTPServer.handle_request (root : FSNode) (data : List Nat) :
    Except String HTTPResponse :=
  match HTTPRequest.parse data with
  | none => Except.error "UnicodeDecodeError"
  | some request => HTTPServer.dispatch root request

/-- Whether a `PyData` value is a text string (and not a bytes object). -/
def PyData.isTextStr : PyData → Bool
  | PyData.str _ => true
  | PyData.bytes _ => false

/-- Children of the sample working directory used in concrete checks:
a file `a.txt`, an empty directory named `notes.txt`, and a directory
`sub` containing one file. -/
def sampleChildren : List (String × FSNode) :=
  [("a.txt", FSNode.file (utf8Encode "hello")),
   ("notes.txt", FSNode.dir []),
   ("sub", FSNode.dir [("inner.txt", FSNode.file [])])]

/-- The sample working directory as a filesystem node. -/
def sampleFS : FSNode := FSNode.dir sampleChildren

set_option maxRecDepth 4000 in
theorem utf8DecodeStep_length {b : Nat} {rest rest2 : List Nat} {c : Char}
    (h : utf8DecodeStep b rest = some (c, rest2)) : rest2.length ≤ rest.length := by
  unfold utf8DecodeStep at h
  repeat' split at h
  all_goals first
    | (cases h; simp; try omega)
    | exact absurd h (by simp)

theorem utf8DecodeReplaceAux_fuel (f g : Nat) (bs : List Nat)
    (hf : bs.length ≤ f) (hg : bs.length ≤ g) :
    utf8DecodeReplaceAux f bs = utf8DecodeReplaceAux g bs := by
  induction f generalizing g bs with
  | zero =>
    cases bs with
    | nil => cases g <;> rfl
    | cons b rest => simp at hf
  | succ f ih =>
    cases bs with
    | nil => cases g <;> rfl
    | cons b rest =>
      cases g with
      | zero => simp at hg
      | succ g =>
        rw [utf8DecodeReplaceAux, utf8DecodeReplaceAux]
        cases hstep : utf8DecodeStep b rest with
        | none =>
          simp only []
          rw [ih g rest (by simp at hf; omega) (by simp at hg; omega)]
        | some p =>
          obtain ⟨c, rest2⟩ := p
          have hlen := utf8DecodeStep_length hstep
          simp only []
          rw [ih g rest2 (by simp at hf; omega) (by simp at hg; omega)]

theorem utf8DecodeReplaceL_encode (c : Char) (bs : List Nat) :
    utf8DecodeReplaceL (utf8EncodeChar c ++ bs) = c :: utf8DecodeReplaceL bs := by
  have hv : c.toNat < 0xd800 ∨ (0xdfff < c.toNat ∧ c.toNat < 0x110000) := c.valid
  have hofn : Char.ofNat c.toNat = c := Char.ofNat_toNat c
  unfold utf8DecodeReplaceL utf8EncodeChar
  by_cases h1 : c.toNat < 0x80
  · rw [if_pos h1, List.singleton_append, List.length_cons, utf8DecodeReplaceAux]
    have hstep : utf8DecodeStep c.toNat bs = some (Char.ofNat c.toNat, bs) := by
      unfold utf8DecodeStep
      rw [if_pos h1]
    rw [hstep]
    simp only []
    rw [hofn]
  · by_cases h2 : c.toNat < 0x800
    · rw [if_neg h1, if_pos h2, List.cons_append, List.cons_append, List.nil_append,
        List.length_cons, List.length_cons, utf8DecodeReplaceAux]
      have hstep : utf8DecodeStep (0xC0 + c.toNat / 64) ((0x80 + c.toNat % 64) :: bs) =
          some (Char.ofNat c.toNat, bs) := by
        unfold utf8DecodeStep
        rw [if_neg (by omega), if_neg (by omega), if_pos (by omega)]
        simp only []
        rw [
          if_pos (show 0x80 ≤ 0x80 + c.toNat % 64 ∧ 0x80 + c.toNat % 64 < 0xC0 by omega)]
        have harg : (0xC0 + c.toNat / 64 - 0xC0) * 64 + (0x80 + c.toNat % 64 - 0x80) =
            c.toNat := by omega
        rw [harg]
      rw [hstep]
      simp only []
      rw [hofn]
      rw [utf8DecodeReplaceAux_fuel (bs.length + 1) bs.length bs (by omega) (by omega)]
    · by_cases h3 : c.toNat < 0x10000
      · rw [if_neg h1, if_neg h2, if_pos h3, List.cons_append, List.cons_append,
          List.cons_append, List.nil_append, List.length_cons, List.length_cons,
          List.length_cons, utf8DecodeReplaceAux]
        have hstep : utf8DecodeStep (0xE0 + c.toNat / 4096)
            ((0x80 + c.toNat / 64 % 64) :: (0x80 + c.toNat % 64) :: bs) =
            some (Char.ofNat c.toNat, bs) := by
          unfold utf8DecodeStep
          rw [if_neg (by omega), if_neg (by omega), if_neg (by omega), if_pos (by omega)]
          simp only []
          rw [if_pos (show 0x80 ≤ 0x80 + c.toNat / 64 % 64 ∧ 0x80 + c.toNat / 64 % 64 < 0xC0 ∧
              0x80 ≤ 0x80 + c.toNat % 64 ∧ 0x80 + c.toNat % 64 < 0xC0 ∧
              (0xE0 < 0xE0 + c.toNat / 4096 ∨ 0xA0 ≤ 0x80 + c.toNat / 64 % 64) ∧
              (0xE0 + c.toNat / 4096 ≠ 0xED ∨ 0x80 + c.toNat / 64 % 64 < 0xA0) by omega)]
          have harg : (0xE0 + c.toNat / 4096 - 0xE0) * 4096 +
              (0x80 + c.toNat / 64 % 64 - 0x80) * 64 + (0x80 + c.toNat % 64 - 0x80) =
              c.toNat := by omega
          rw [harg]
        rw [hstep]
        simp only []
        rw [hofn]
        rw [utf8DecodeReplaceAux_fuel (bs.length + 2) bs.length bs (by omega) (by omega)]
      · rw [if_neg h1, if_neg h2, if_neg h3, List.cons_append, List.cons_append,
          List.cons_append, List.cons_append, List.nil_append, List.length_cons,
          List.length_cons, List.length_cons, List.length_cons, utf8DecodeReplaceAux]
        have hstep : utf8DecodeStep (0xF0 + c.toNat / 262144)
            ((0x80 + c.toNat / 4096 % 64) :: (0x80 + c.toNat / 64 % 64) ::
              (0x80 + c.toNat % 64) :: bs) = some (Char.ofNat c.toNat, bs) := by
          unfold utf8DecodeStep
          rw [if_neg (by omega), if_neg (by omega), if_neg (by omega), if_neg (by omega),
            if_pos (by omega)]
          simp only []
          rw [if_pos (show 0x80 ≤ 0x80 + c.toNat / 4096 % 64 ∧ 0x80 + c.toNat / 4096 % 64 < 0xC0 ∧
              0x80 ≤ 0x80 + c.toNat / 64 % 64 ∧ 0x80 + c.toNat / 64 % 64 < 0xC0 ∧
              0x80 ≤ 0x80 + c.toNat % 64 ∧ 0x80 + c.toNat % 64 < 0xC0 ∧
              (0xF0 < 0xF0 + c.toNat / 262144 ∨ 0x90 ≤ 0x80 + c.toNat / 4096 % 64) ∧
              (0xF0 + c.toNat / 262144 ≠ 0xF4 ∨ 0x80 + c.toNat / 4096 % 64 < 0x90) by omega)]
          have harg : (0xF0 + c.toNat / 262144 - 0xF0) * 262144 +
              (0x80 + c.toNat / 4096 % 64 - 0x80) * 4096 +
              (0x80 + c.toNat / 64 % 64 - 0x80) * 64 + (0x80 + c.toNat % 64 - 0x80) =
              c.toNat := by omega
          rw [harg]
        rw [hstep]
        simp only []
        rw [hofn]
        rw [utf8DecodeReplaceAux_fuel (bs.length + 3) bs.length bs (by omega) (by omega)]

theorem percentStep_length (c : Char) (rest : List Char) :
    (percentStep c rest).2.length ≤ rest.length := by
  unfold percentStep
  repeat' split
  all_goals simp_all <;> omega

theorem unquoteTokensAux_fuel (f g : Nat) (cs : List Char)
    (hf : cs.length ≤ f) (hg : cs.length ≤ g) :
    unquoteTokensAux f cs = unquoteTokensAux g cs := by
  induction f generalizing g cs with
  | zero =>
    cases cs with
    | nil => cases g <;> rfl
    | cons c rest => simp at hf
  | succ f ih =>
    cases cs with
    | nil => cases g <;> rfl
    | cons c rest =>
      cases g with
      | zero => simp at hg
      | succ g =>
        rw [unquoteTokensAux, unquoteTokensAux]
        have hlen := percentStep_length c rest
        cases hstep : percentStep c rest with
        | mk t rest2 =>
          rw [hstep] at hlen
          simp only [] at hlen
          simp only []
          rw [ih g rest2 (by simp at hf; omega) (by simp at hg; omega)]

theorem percentStep_not_pct {c : Char} (rest : List Char) (h : c ≠ '%') :
    percentStep c rest = (Sum.inr c, rest) := by
  unfold percentStep
  rw [if_neg h]

theorem unquoteTokens_cons_safe {c : Char} (cs : List Char) (h : c ≠ '%') :
    unquoteTokens (c :: cs) = Sum.inr c :: unquoteTokens cs := by
  unfold unquoteTokens
  rw [List.length_cons, unquoteTokensAux, percentStep_not_pct cs h]

theorem unquoteTokens_hex {h1 h2 : Char} {v1 v2 : Nat} (cs : List Char)
    (hv1 : hexVal h1 = some v1) (hv2 : hexVal h2 = some v2) :
    unquoteTokens ('%' :: h1 :: h2 :: cs) =
      Sum.inl (16 * v1 + v2) :: unquoteTokens cs := by
  unfold unquoteTokens
  have hstep : percentStep '%' (h1 :: h2 :: cs) = (Sum.inl (16 * v1 + v2), cs) := by
    unfold percentStep
    rw [if_pos rfl]
    simp only []
    rw [hv1, hv2]
  rw [List.length_cons, List.length_cons, List.length_cons, unquoteTokensAux, hstep]
  simp only []
  rw [unquoteTokensAux_fuel (cs.length + 2) cs.length cs (by omega) (by omega)]

theorem hexVal_hexDigitChar : ∀ n : Nat, n < 16 → hexVal (hexDigitChar n) = some n := by
  decide

theorem utf8EncodeChar_lt_256 (c : Char) : ∀ b ∈ utf8EncodeChar c, b < 256 := by
  have hv : c.toNat < 0xd800 ∨ (0xdfff < c.toNat ∧ c.toNat < 0x110000) := c.valid
  intro b hb
  unfold utf8EncodeChar at hb
  simp only [] at hb
  repeat' split at hb
  all_goals simp only [List.mem_cons, List.not_mem_nil, or_false] at hb
  all_goals omega

theorem unquoteTokens_triplets (bs : List Nat) (cs : List Char)
    (hlt : ∀ b ∈ bs, b < 256) :
    unquoteTokens
        ((bs.flatMap (fun b => ['%', hexDigitChar (b / 16), hexDigitChar (b % 16)])) ++ cs) =
      bs.map Sum.inl ++ unquoteTokens cs := by
  induction bs with
  | nil => simp
  | cons b rest ih =>
    have hb : b < 256 := hlt b (by simp)
    have h1 : hexVal (hexDigitChar (b / 16)) = some (b / 16) :=
      hexVal_hexDigitChar _ (by omega)
    have h2 : hexVal (hexDigitChar (b % 16)) = some (b % 16) :=
      hexVal_hexDigitChar _ (by omega)
    simp only [List.flatMap_cons, List.append_assoc, List.cons_append, List.nil_append]
    rw [unquoteTokens_hex _ h1 h2]
    have hbv : 16 * (b / 16) + b % 16 = b := by omega
    rw [hbv, ih (fun x hx => hlt x (by simp [hx]))]
    simp

theorem flushDecode_inl_run (bs : List Nat) (acc : List Nat) (ts : List (Nat ⊕ Char)) :
    flushDecode acc (bs.map Sum.inl ++ ts) = flushDecode (acc ++ bs) ts := by
  induction bs generalizing acc with
  | nil => simp
  | cons b rest ih =>
    simp only [List.map_cons, List.cons_append, flushDecode, List.append_eq]
    rw [ih (acc ++ [b])]
    simp

theorem isSafeChar_ne_pct {c : Char} (h : isSafeChar c = true) : c ≠ '%' := by
  intro hc
  subst hc
  simp [isSafeChar] at h

theorem flushDecode_quote_main (cs : List Char) (ds : List Char) (acc : List Nat)
    (hacc : ∀ bs : List Nat, utf8DecodeReplaceL (acc ++ bs) = ds ++ utf8DecodeReplaceL bs) :
    flushDecode acc (unquoteTokens (cs.flatMap quoteChar)) = ds ++ cs := by
  induction cs generalizing ds acc with
  | nil =>
    have h0 := hacc []
    simp only [List.append_nil] at h0
    simp only [List.flatMap_nil]
    show utf8DecodeReplaceL acc = ds ++ []
    rw [h0]
    simp [utf8DecodeReplaceL, utf8DecodeReplaceAux]
  | cons c rest ih =>
    simp only [List.flatMap_cons]
    by_cases hsafe : isSafeChar c
    · have hne : c ≠ '%' := isSafeChar_ne_pct hsafe
      rw [show quoteChar c = [c] from by unfold quoteChar; rw [if_pos hsafe]]
      rw [List.singleton_append, unquoteTokens_cons_safe _ hne]
      simp only [flushDecode]
      have h0 := hacc []
      simp only [List.append_nil] at h0
      rw [h0, ih [] [] (fun bs => by simp)]
      show ds ++ utf8DecodeReplaceL [] ++ c :: rest = ds ++ c :: rest
      have hnil : utf8DecodeReplaceL [] = [] := rfl
      rw [hnil]
      simp
    · rw [show quoteChar c =
          (utf8EncodeChar c).flatMap
            (fun b => ['%', hexDigitChar (b / 16), hexDigitChar (b % 16)]) from by
        unfold quoteChar; rw [if_neg hsafe]]
      rw [unquoteTokens_triplets _ _ (utf8EncodeChar_lt_256 c), flushDecode_inl_run]
      rw [ih (ds ++ [c]) (acc ++ utf8EncodeChar c) (fun bs => by
        rw [List.append_assoc, hacc (utf8EncodeChar c ++ bs),
          utf8DecodeReplaceL_encode c bs]
        simp)]
      simp

/-- C6: percent-encoding any directory or file name with the scheme used
to build hrefs in the directory listing (`urllib.parse.quote`, modelled by
`quote`) and percent-decoding it with the scheme used on incoming request
URIs (`urllib.parse.unquote`, modelled by `unquote`) yields the original
name. -/
theorem C6_quote_unquote_roundtrip (s : String) : unquote (quote s) = s := by
  unfold quote unquote
  rw [show (String.mk (s.data.flatMap quoteChar)).data = s.data.flatMap quoteChar from rfl]
  rw [flushDecode_quote_main s.data [] [] (fun bs => by simp)]
  cases s
  rfl

theorem utf8DecodeL_cons_ne_nil {b : Nat} {rest : List Nat} {l : List Char}
    (h : utf8DecodeL (b :: rest) = some l) : l ≠ [] := by
  unfold utf8DecodeL at h
  rw [List.length_cons, utf8DecodeAux] at h
  cases hstep : utf8DecodeStep b rest with
  | none => rw [hstep] at h; simp at h
  | some p =>
    obtain ⟨c, rest2⟩ := p
    rw [hstep] at h
    simp only [] at h
    obtain ⟨cs, -, rfl⟩ := Option.map_eq_some'.mp h
    simp

theorem pyDecode_cons_ne_empty {b : Nat} {rest : List Nat} {s : String}
    (h : pyDecode (b :: rest) = some s) : s ≠ "" := by
  unfold pyDecode at h
  obtain ⟨l, hl, rfl⟩ := Option.map_eq_some'.mp h
  have hne := utf8DecodeL_cons_ne_nil hl
  intro hs
  apply hne
  have : (String.mk l).data = ("" : String).data := congrArg String.data hs
  simpa using this

theorem parse_method_of_token {data : List Nat} {r : HTTPRequest}
    (hp : HTTPRequest.parse data = some r) :
    pyDecode ((splitByte 32 (firstLine data)).headD []) = some r.method := by
  simp only [HTTPRequest.parse] at hp
  split at hp
  · exact absurd hp (by simp)
  · rename_i m hm
    split at hp
    · split at hp
      · exact absurd hp (by simp)
      · rename_i u hu
        split at hp
        · cases hp; exact hm
        · cases hp; exact hm
    · cases hp; exact hm

theorem dictInsert_keys (d : List (String × String)) (kv : String × String) :
    (dictInsert d kv).map Prod.fst =
      if kv.1 ∈ d.map Prod.fst then d.map Prod.fst else d.map Prod.fst ++ [kv.1] := by
  unfold dictInsert
  split
  · rename_i hmem
    rw [List.map_map]
    congr 1
    funext p
    simp only [Function.comp_apply]
    split <;> simp_all
  · rename_i hmem
    rw [List.map_append]
    rfl

theorem dictInsert_keys_nodup {d : List (String × String)} (kv : String × String)
    (h : (d.map Prod.fst).Nodup) : ((dictInsert d kv).map Prod.fst).Nodup := by
  rw [dictInsert_keys]
  split
  · exact h
  · rename_i hmem
    simp [List.nodup_append, h, hmem]

theorem dictInsert_key_mem {d : List (String × String)} {s : String} (kv : String × String)
    (h : s ∈ d.map Prod.fst) : s ∈ (dictInsert d kv).map Prod.fst := by
  rw [dictInsert_keys]
  split
  · exact h
  · exact List.mem_append_left _ h

theorem dictInsert_pair_preserved {d : List (String × String)} {k v : String}
    (kv : String × String) (h : (k, v) ∈ d) (hne : k ≠ kv.1) :
    (k, v) ∈ dictInsert d kv := by
  unfold dictInsert
  split
  · refine List.mem_map.mpr ⟨(k, v), h, ?_⟩
    simp [hne]
  · exact List.mem_append_left _ h

theorem dictInsert_self_mem (d : List (String × String)) (kv : String × String) :
    (kv.1, kv.2) ∈ dictInsert d kv := by
  unfold dictInsert
  split
  · rename_i hmem
    obtain ⟨p, hp, hfst⟩ := List.mem_map.mp hmem
    refine List.mem_map.mpr ⟨p, hp, ?_⟩
    simp [hfst]
  · simp

theorem dictUpdate_key_mem {d : List (String × String)} {s : String}
    (e : List (String × String)) (h : s ∈ d.map Prod.fst) :
    s ∈ (dictUpdate d e).map Prod.fst := by
  induction e generalizing d with
  | nil => exact h
  | cons kv rest ih => exact ih (dictInsert_key_mem kv h)

theorem dictUpdate_keys_nodup {d : List (String × String)} (e : List (String × String))
    (h : (d.map Prod.fst).Nodup) : ((dictUpdate d e).map Prod.fst).Nodup := by
  induction e generalizing d with
  | nil => exact h
  | cons kv rest ih => exact ih (dictInsert_keys_nodup kv h)

theorem dictUpdate_pair_preserved {d : List (String × String)} {k v : String}
    (e : List (String × String)) (h : (k, v) ∈ d) (hne : k ∉ e.map Prod.fst) :
    (k, v) ∈ dictUpdate d e := by
  induction e generalizing d with
  | nil => exact h
  | cons kv rest ih =>
    refine ih (dictInsert_pair_preserved kv h ?_) ?_
    · intro hk
      exact hne (by simp [hk])
    · intro hk
      exact hne (by simp [hk])

theorem dictUpdate_extra_mem {d : List (String × String)}
    (e : List (String × String)) (hnd : (e.map Prod.fst).Nodup) :
    ∀ kv ∈ e, kv ∈ dictUpdate d e := by
  induction e generalizing d with
  | nil => intro kv h; simp at h
  | cons kv0 rest ih =>
    intro kv hkv
    rcases List.mem_cons.mp hkv with rfl | hmem
    · have hnotin : kv.1 ∉ rest.map Prod.fst := by
        have := hnd
        simp only [List.map_cons, List.nodup_cons] at this
        exact this.1
      exact dictUpdate_pair_preserved rest (dictInsert_self_mem d kv) hnotin
    · exact ih (by simp only [List.map_cons, List.nodup_cons] at hnd; exact hnd.2) kv hmem

theorem foldl_strings_join (l : List String) (init : String) :
    l.foldl (fun acc s => acc ++ s) init = init ++ String.join l := by
  induction l generalizing init with
  | nil => simp [String.join]
  | cons a rest ih =>
    simp only [List.foldl_cons, String.join, List.foldl_cons] at *
    rw [ih (init ++ a), ih ("" ++ a), String.empty_append, String.append_assoc]

theorem foldl_append_join {α : Type} (f : α → String) (l : List α) (init : String) :
    l.foldl (fun acc p => acc ++ f p) init = init ++ String.join (l.map f) := by
  have h : l.foldl (fun acc p => acc ++ f p) init = (l.map f).foldl (fun acc s => acc ++ s) init := by
    rw [List.foldl_map]
  rw [h, foldl_strings_join]

/-- C1 (refuting evaluation): the claim says every request whose method is
neither `GET` nor `OPTIONS` gets a 501 response with body
`<h1>501 Not Implemented</h1>`.  For the method string `"request"`,
`getattr(self, "handle_request")` resolves `handle_request` itself instead
of falling back to `HTTP_501_handler`; the re-entrant call then raises an
uncaught `AttributeError` (no response at all), so the claim fails on the
code. -/
theorem C1_unknown_method_crash :
    HTTPRequest.parse (utf8Encode "request / HTTP/1.1") =
      some ⟨"request", some "/", PyData.bytes (utf8Encode "HTTP/1.1")⟩ ∧
    HTTPServer.handle_request sampleFS (utf8Encode "request / HTTP/1.1") =
      Except.error "AttributeError" := ⟨rfl, rfl⟩

/-- C2 (refuting evaluation): the claim says a GET request whose request
line has a single token (so `uri` stays unset) is handled successfully and
served as the root resource.  In the code, `handle_GET` evaluates
`urllib.parse.unquote(None)`, which raises `TypeError`, so handling does
not succeed. -/
theorem C2_unset_uri_crash :
    HTTPRequest.parse (utf8Encode "GET") = some ⟨"GET", none, PyData.str "1.1"⟩ ∧
    HTTPServer.handle_request sampleFS (utf8Encode "GET") =
      Except.error "TypeError" := ⟨rfl, rfl⟩

/-- C5 (refuting evaluation): the claim (and the class docstring) says
`http_version` is a text string equal to the third token decoded.  The
code assigns the raw bytes token without calling `.decode()`
(line 225), so after parsing `GET / HTTP/1.1` the attribute holds the
bytes object `b"HTTP/1.1"`, not a text string. -/
theorem C5_http_version_undecoded :
    HTTPRequest.parse (utf8Encode "GET / HTTP/1.1") =
      some ⟨"GET", some "/", PyData.bytes (utf8Encode "HTTP/1.1")⟩ ∧
    (PyData.bytes (utf8Encode "HTTP/1.1")).isTextStr = false := ⟨rfl, rfl⟩

/-- C10: parsing the empty byte buffer (a zero-byte read) does not raise:
it yields `method = ""`, `uri` unset, and `http_version` equal to the
default text `"1.1"`. -/
theorem C10_parse_empty_buffer :
    HTTPRequest.parse [] = some ⟨"", none, PyData.str "1.1"⟩ := rfl

/-- C4 (counterexample): the claim says the parsed `method` is non-empty
for every input buffer.  Parsing the empty buffer completes and yields the
empty method string. -/
theorem C4_counterexample :
    (HTTPRequest.parse []).map HTTPRequest.method = some "" := rfl

/-- C4 (amended): after parsing completes, the `method` attribute is
non-empty whenever the first space-delimited token of the buffer's first
CRLF-line is non-empty (for the empty buffer, or a request line starting
with a space, the method is the empty string). -/
theorem C4_method_nonempty (data : List Nat) (r : HTTPRequest)
    (hp : HTTPRequest.parse data = some r)
    (hne : (splitByte 32 (firstLine data)).headD [] ≠ []) : r.method ≠ "" := by
  have hm := parse_method_of_token hp
  rcases hl : (splitByte 32 (firstLine data)).headD [] with _ | ⟨b, bs⟩
  · exact absurd hl hne
  · rw [hl] at hm
    exact pyDecode_cons_ne_empty hm

/-- Witness for C4: the hypotheses hold at the request line
`GET / HTTP/1.1`. -/
theorem C4_method_nonempty_witness :
    (splitByte 32 (firstLine (utf8Encode "GET / HTTP/1.1"))).headD [] ≠ [] ∧
    (⟨"GET", some "/", PyData.bytes (utf8Encode "HTTP/1.1")⟩ : HTTPRequest).method ≠ "" :=
  ⟨by decide, C4_method_nonempty (utf8Encode "GET / HTTP/1.1") _ rfl (by decide)⟩

theorem headers_copy_eq_update (e : List (String × String)) :
    HTTPServer.headers_copy (some e) = dictUpdate HTTPServer.headers e := by
  show (if e = [] then HTTPServer.headers else dictUpdate HTTPServer.headers e) =
    dictUpdate HTTPServer.headers e
  split
  · rename_i he
    subst he
    rfl
  · rfl

/-- C7: for every extra-headers mapping (unique keys), the merged header
mapping rendered by `response_headers` has every key exactly once, always
contains `Server` and `Content-Type`, an extra header's pair survives the
merge (so an override wins over the default of the same key), and the
rendered block is exactly one `Key: Value\r\n` line per merged entry. -/
theorem C7_response_headers_merge (e : List (String × String))
    (hnd : (e.map Prod.fst).Nodup) :
    ((HTTPServer.headers_copy (some e)).map Prod.fst).Nodup ∧
    "Server" ∈ (HTTPServer.headers_copy (some e)).map Prod.fst ∧
    "Content-Type" ∈ (HTTPServer.headers_copy (some e)).map Prod.fst ∧
    (∀ kv ∈ e, kv ∈ HTTPServer.headers_copy (some e)) ∧
    HTTPServer.response_headers (some e) =
      String.join ((HTTPServer.headers_copy (some e)).map
        (fun p => p.1 ++ ": " ++ p.2 ++ "\r\n")) := by
  rw [headers_copy_eq_update]
  refine ⟨dictUpdate_keys_nodup e (by decide), dictUpdate_key_mem e (by decide),
    dictUpdate_key_mem e (by decide), dictUpdate_extra_mem e hnd, ?_⟩
  unfold HTTPServer.response_headers
  rw [headers_copy_eq_update]
  rw [foldl_append_join (α := String × String) (fun p => p.1 ++ ": " ++ p.2 ++ "\r\n")
    (dictUpdate HTTPServer.headers e) ""]
  rw [String.empty_append]

/-- Witness for C7: a mapping overriding `Content-Type` and adding
`Allow`. -/
theorem C7_response_headers_merge_witness :
    (([("Content-Type", "text/plain"), ("Allow", "OPTIONS, GET")].map
      (Prod.fst (α := String) (β := String))).Nodup) ∧
    ("Content-Type", "text/plain") ∈
      HTTPServer.headers_copy (some [("Content-Type", "text/plain"), ("Allow", "OPTIONS, GET")]) :=
  ⟨by decide,
   (C7_response_headers_merge [("Content-Type", "text/plain"), ("Allow", "OPTIONS, GET")]
     (by decide)).2.2.2.1 _ (by decide)⟩

/-- C9: the rendered listing of a directory is the head element, then one
paragraph per immediate subdirectory (folder marker, href the
percent-encoding of the listed directory's own name joined to the child's
name by `/`), then one paragraph per immediate regular file (file marker,
same href scheme); the output depends only on the immediate children, so
grandchildren never appear. -/
theorem C9_directory_listing (root : FSNode) (path : String)
    (children : List (String × FSNode))
    (h : FSNode.resolve root (pathComponents path) = some (FSNode.dir children)) :
    render_directory_contents root path = some (
      "<head><meta charset=\"UTF-8\"></head>" ++
      String.join ((children.filter (fun c => c.2.isDirNode)).map
        (fun c => dirPara (pathName path) c.1)) ++
      String.join ((children.filter (fun c => c.2.isFileNode)).map
        (fun c => filePara (pathName path) c.1))) := by
  unfold render_directory_contents
  rw [h]
  simp only []
  rw [foldl_append_join (α := String × FSNode) (fun c => dirPara (pathName path) c.1)
    (children.filter (fun c => c.2.isDirNode)) "<head><meta charset=\"UTF-8\"></head>"]
  rw [foldl_append_join (α := String × FSNode) (fun c => filePara (pathName path) c.1)
    (children.filter (fun c => c.2.isFileNode))]

/-- Witness for C9: the sample directory with one file, one empty
directory and one populated subdirectory. -/
theorem C9_directory_listing_witness :
    FSNode.resolve sampleFS (pathComponents ".") = some (FSNode.dir sampleChildren) ∧
    render_directory_contents sampleFS "." = some (
      "<head><meta charset=\"UTF-8\"></head>" ++
      String.join ((sampleChildren.filter (fun c => c.2.isDirNode)).map
        (fun c => dirPara (pathName ".") c.1)) ++
      String.join ((sampleChildren.filter (fun c => c.2.isFileNode)).map
        (fun c => filePara (pathName ".") c.1))) :=
  ⟨rfl, C9_directory_listing sampleFS "." sampleChildren rfl⟩

/-- C8: a GET request whose decoded, trimmed path does not exist yields a
404 response whose body is exactly `<h1>404 Not Found: ` ++ rel_path ++
`</h1>` and whose headers are the defaults, whose `Content-Type` is
`text/html`. -/
theorem C8_get_missing_404 (root : FSNode) (req : HTTPRequest) (uri : String)
    (hu : req.uri = some uri)
    (hne : FSNode.pathExists root (rel_path_of uri) = false) :
    HTTPServer.handle_GET root req = Except.ok ⟨HTTPServer.response_line 404,
      HTTPServer.response_headers none,
      utf8Encode ("<h1>404 Not Found: " ++ rel_path_of uri ++ "</h1>")⟩ ∧
    HTTPServer.response_headers none = "Server: CrudeServer\r\nContent-Type: text/html\r\n" := by
  refine ⟨?_, rfl⟩
  unfold HTTPServer.handle_GET
  rw [hu]
  simp only [hne]
  rfl

/-- Witness for C8: `/missing.txt` does not exist in the sample working
directory. -/
theorem C8_get_missing_404_witness :
    FSNode.pathExists sampleFS (rel_path_of "/missing.txt") = false ∧
    HTTPServer.handle_GET sampleFS ⟨"GET", some "/missing.txt", PyData.str "1.1"⟩ =
      Except.ok ⟨HTTPServer.response_line 404, HTTPServer.response_headers none,
        utf8Encode ("<h1>404 Not Found: " ++ rel_path_of "/missing.txt" ++ "</h1>")⟩ :=
  ⟨by decide,
   (C8_get_missing_404 sampleFS ⟨"GET", some "/missing.txt", PyData.str "1.1"⟩
     "/missing.txt" rfl (by decide)).1⟩

/-- C3 (counterexample): the claim says every existing directory is served
with `Content-Type: text/html`, whatever the directory's name.  The code
computes the content type from the path's name before the
file/directory branch, so the directory named `notes.txt` is served with
`Content-Type: text/plain`, which renders differently from `text/html`. -/
theorem C3_counterexample :
    FSNode.pathExists sampleFS (rel_path_of "/notes.txt") = true ∧
    FSNode.pathIsFile sampleFS (rel_path_of "/notes.txt") = false ∧
    HTTPServer.handle_GET sampleFS ⟨"GET", some "/notes.txt", PyData.str "1.1"⟩ =
      Except.ok ⟨HTTPServer.response_line 200,
        HTTPServer.response_headers (some [("Content-Type", "text/plain")]),
        utf8Encode "<head><meta charset=\"UTF-8\"></head>"⟩ ∧
    HTTPServer.response_headers (some [("Content-Type", "text/plain")]) ≠
      HTTPServer.response_headers (some [("Content-Type", "text/html")]) :=
  ⟨rfl, rfl, rfl, by decide⟩

/-- C3 (amended): a GET on an existing directory yields status 200 and a
`Content-Type` equal to the MIME type guessed from the path's name,
falling back to `text/html` when nothing is guessed; the body is the
rendered directory listing. -/
theorem C3_directory_content_type (root : FSNode) (req : HTTPRequest) (uri : String)
    (hu : req.uri = some uri)
    (hex : FSNode.pathExists root (rel_path_of uri) = true)
    (hnf : FSNode.pathIsFile root (rel_path_of uri) = false) :
    HTTPServer.handle_GET root req = Except.ok ⟨HTTPServer.response_line 200,
      HTTPServer.response_headers
        (some [("Content-Type", (guess_type (rel_path_of uri)).getD "text/html")]),
      utf8Encode ((render_directory_contents root (rel_path_of uri)).getD "")⟩ := by
  obtain ⟨ch, hch⟩ : ∃ ch, FSNode.resolve root (pathComponents (rel_path_of uri)) =
      some (FSNode.dir ch) := by
    unfold FSNode.pathExists at hex
    unfold FSNode.pathIsFile at hnf
    cases hres : FSNode.resolve root (pathComponents (rel_path_of uri)) with
    | none => rw [hres] at hex; simp at hex
    | some node =>
      cases node with
      | file content => rw [hres] at hnf; simp at hnf
      | dir ch => exact ⟨ch, rfl⟩
  have hrender : render_directory_contents root (rel_path_of uri) =
      some ((render_directory_contents root (rel_path_of uri)).getD "") := by
    unfold render_directory_contents
    rw [hch]
    rfl
  unfold HTTPServer.handle_GET
  rw [hu]
  simp only [hex, hnf]
  rw [hrender]
  rfl

/-- Witness for C3 (amended): the empty directory named `notes.txt` in the
sample working directory. -/
theorem C3_directory_content_type_witness :
    FSNode.pathExists sampleFS (rel_path_of "/notes.txt") = true ∧
    FSNode.pathIsFile sampleFS (rel_path_of "/notes.txt") = false ∧
    HTTPServer.handle_GET sampleFS ⟨"GET", some "/notes.txt", PyData.bytes []⟩ =
      Except.ok ⟨HTTPServer.response_line 200,
        HTTPServer.response_headers
          (some [("Content-Type", (guess_type (rel_path_of "/notes.txt")).getD "text/html")]),
        utf8Encode ((render_directory_contents sampleFS (rel_path_of "/notes.txt")).getD "")⟩ :=
  ⟨by decide, by decide,
   C3_directory_content_type sampleFS ⟨"GET", some "/notes.txt", PyData.bytes []⟩
     "/notes.txt" rfl (by decide) (by decide)⟩
